import Mathlib

/-!
Verification development for the complex steerable pyramid implementation
in `steerable/SCFpyr_NumPy.py`, `steerable/SCFpyr_PyTorch.py` and
`steerable/fft.py`.

The file shallowly embeds the parts of the code the checked claims depend
on.  Structural claims (pyramid layout, precondition guards, `level_size`)
are settled over a shape-level embedding: NumPy arrays are abstracted to
their shapes and Python lists to Lean lists, which is faithful because the
grid and mask utilities are shape-preserving and none of the structural
control flow of `build` / `reconstruct` inspects numeric array content.
Numeric claims (the 2x2 inverse-DFT divergence between the backends, the
angular profiles, the radial-abscissa shift, the pixel finalisation) are
embedded exactly, over `ℚ` where the code's arithmetic is exact at the
inputs considered and over `ℝ` where it is transcendental.
-/

namespace Steerable

/-- A Python object as it occurs in the coefficient tree of
`SCFpyr_NumPy.build`: either a NumPy array abstracted to its shape
(`arr s` has `s.length` axes), or a Python list of objects.  Numeric
array content is irrelevant to every claim settled with this type. -/
inductive PyObj : Type
  | arr (shape : List ℕ)
  | pylist (items : List PyObj)

/-- Python `obj[0]`: the first element of a list, or the first row of a
NumPy array (an array with the leading axis removed).  `none` models an
IndexError. -/
def pyGetZero : PyObj → Option PyObj
  | .arr [] => none
  | .arr (d :: rest) => if 0 < d then some (.arr rest) else none
  | .pylist [] => none
  | .pylist (x :: _) => some x

/-- Python `obj.shape`: defined for NumPy arrays only (`none` models the
AttributeError a plain list would raise). -/
def pyShape : PyObj → Option (List ℕ)
  | .arr s => some s
  | .pylist _ => none

/-- Python `len(obj)`: the leading axis of an array, the length of a list. -/
def pyLen : PyObj → ℕ
  | .arr [] => 0
  | .arr (d :: _) => d
  | .pylist l => l.length

/-! Crop-index formulas of `_build_levels`.

`SCFpyr_NumPy._build_levels` (lines 194-195) computes, per axis of length
`dims`,
`low_ind_start = ceil((dims+0.5)/2) - ceil((ceil((dims-0.5)/2)+0.5)/2)` and
`low_ind_end = low_ind_start + ceil((dims-0.5)/2)`,
then slices `lodft`, `log_rad` and `angle` to `[low_ind_start, low_ind_end)`.
-/

/-- Ceiling `ceil((dims - 0.5)/2)` from lines 194-195 of `SCFpyr_NumPy.py`. -/
def cropCeil (d : ℕ) : ℤ := ⌈(((d : ℚ)) - 1/2) / 2⌉

/-- Crop start `low_ind_start` of line 194 of `SCFpyr_NumPy.py`. -/
def loStart (d : ℕ) : ℤ :=
  ⌈(((d : ℚ)) + 1/2) / 2⌉ - ⌈(((cropCeil d : ℚ)) + 1/2) / 2⌉

/-- Crop end `low_ind_end` of line 195 of `SCFpyr_NumPy.py`. -/
def loEnd (d : ℕ) : ℤ := loStart d + cropCeil d

/-- Length of the NumPy slice `a[low_ind_start : low_ind_end]` along an
axis of length `d`; Python slicing clamps both bounds into `[0, d]`. -/
def sliceLen (d : ℕ) : ℕ := (min (loEnd d) (d : ℤ) - max (loStart d) 0).toNat

lemma ceil_add_half (n : ℕ) : ⌈((n : ℚ) + 1/2) / 2⌉ = ((n / 2 : ℕ) : ℤ) + 1 := by
  rcases Nat.even_or_odd n with ⟨m, rfl⟩ | ⟨m, rfl⟩
  · have hm : (m + m) / 2 = m := by omega
    rw [hm, Int.ceil_eq_iff]
    constructor
    · push_cast
      linarith
    · push_cast
      linarith
  · have hm : (2 * m + 1) / 2 = m := by omega
    rw [hm, Int.ceil_eq_iff]
    constructor
    · push_cast
      linarith
    · push_cast
      linarith

lemma ceil_sub_half (n : ℕ) : ⌈((n : ℚ) - 1/2) / 2⌉ = (((n + 1) / 2 : ℕ) : ℤ) := by
  rcases Nat.even_or_odd n with ⟨m, rfl⟩ | ⟨m, rfl⟩
  · have hm : (m + m + 1) / 2 = m := by omega
    rw [hm, Int.ceil_eq_iff]
    constructor
    · push_cast
      linarith
    · push_cast
      linarith
  · have hm : (2 * m + 1 + 1) / 2 = m + 1 := by omega
    rw [hm, Int.ceil_eq_iff]
    constructor
    · push_cast
      linarith
    · push_cast
      linarith

lemma cropCeil_eq (d : ℕ) : cropCeil d = (((d + 1) / 2 : ℕ) : ℤ) :=
  ceil_sub_half d

/-- The cropped slice keeps exactly `ceil((d-0.5)/2) = (d+1)/2` entries. -/
lemma sliceLen_eq (d : ℕ) : sliceLen d = (d + 1) / 2 := by
  unfold sliceLen loEnd loStart
  rw [cropCeil_eq, Int.cast_natCast, ceil_add_half, ceil_add_half]
  omega

lemma sliceLen_cast_eq_cropCeil (d : ℕ) : (sliceLen d : ℤ) = cropCeil d := by
  rw [sliceLen_eq, cropCeil_eq]

lemma sliceLen_lt (d : ℕ) (h : 2 ≤ d) : sliceLen d < d := by
  rw [sliceLen_eq]
  omega

lemma sliceLen_pow_le (d k : ℕ) (h : 2 ^ (k + 1) ≤ d) : 2 ^ k ≤ sliceLen d := by
  rw [sliceLen_eq]
  rw [pow_succ] at h
  omega

lemma iterate_sliceLen_pow_le (j m : ℕ) :
    ∀ r : ℕ, 2 ^ (m + j) ≤ r → 2 ^ m ≤ sliceLen^[j] r := by
  induction j with
  | zero =>
      intro r h
      simpa using h
  | succ j ih =>
      intro r h
      rw [Function.iterate_succ_apply]
      have h' : 2 ^ (m + j + 1) ≤ r := by
        have he : m + (j + 1) = m + j + 1 := by omega
        rwa [he] at h
      exact ih (sliceLen r) (sliceLen_pow_le r (m + j) h')

/-! Shape-level embedding of `SCFpyr_NumPy.build`.

`_build_levels(lodft, log_rad, angle, Xrcos, Yrcos, height)` (lines
148-217) returns, for `height <= 1`, the one-element list holding the
low-pass array `lo0.real` (same shape as `lodft`); otherwise it prepends
the list of `nbands` oriented subbands (`band = ifft2(ifftshift(banddft))`,
shape of the incoming `lodft`) to the recursive result on the cropped
spectrum.  The masks (`pointOp` results) are shape-preserving, so only the
crop changes shapes. -/
def buildLevelsShapes (n : ℕ) : ℕ → ℕ → ℕ → List PyObj
  | r, c, 0 => [PyObj.arr [r, c]]
  | r, c, 1 => [PyObj.arr [r, c]]
  | r, c, h + 2 =>
      PyObj.pylist (List.replicate n (PyObj.arr [r, c])) ::
        buildLevelsShapes n (sliceLen r) (sliceLen c) (h + 1)

/-- Shape-level embedding of `SCFpyr_NumPy.build(im)` (lines 88-145) for an
`r × c` image and configuration `(height = h, nbands = n)`.  The method
first asserts `int(floor(log2(min(width, height)))) - 2 >= self.height`
(lines 103-104) before touching the image data; on success it returns the
high-pass array (input shape, inserted at position 0) followed by the
levels of `_build_levels(..., self.height - 1)`.  `none` models the failed
assertion. -/
def build (r c h n : ℕ) : Option (List PyObj) :=
  if (h : ℤ) ≤ (Nat.log2 (min c r) : ℤ) - 2 then
    some (PyObj.arr [r, c] :: buildLevelsShapes n r c (h - 1))
  else none

lemma log2_32 : Nat.log2 32 = 5 := by
  rw [Nat.log2_eq_log_two]
  exact Nat.log_eq_of_pow_le_of_lt_pow (by norm_num) (by norm_num)

lemma log2_128 : Nat.log2 128 = 7 := by
  rw [Nat.log2_eq_log_two]
  exact Nat.log_eq_of_pow_le_of_lt_pow (by norm_num) (by norm_num)

/-- C3: for a 2D image of positive shape `r × c`, `build` fails (with the
configuration error of lines 103-104, before any computation on the image)
if and only if the configured height exceeds
`floor(log2(min(r, c))) - 2`. -/
theorem build_configuration_error_iff (r c h n : ℕ) (hr : 1 ≤ r) (hc : 1 ≤ c) :
    build r c h n = none ↔ (Nat.log2 (min c r) : ℤ) - 2 < (h : ℤ) := by
  constructor
  · intro hnone
    by_contra hlt
    push_neg at hlt
    unfold build at hnone
    rw [if_pos hlt] at hnone
    exact Option.noConfusion hnone
  · intro hlt
    unfold build
    rw [if_neg (by omega)]

/-- C3 witness: the spec's own example, `height = 8` on a `32 × 32` image,
fails (`floor(log2(32)) - 2 = 3 < 8`). -/
theorem build_configuration_error_witness : build 32 32 8 4 = none :=
  (build_configuration_error_iff 32 32 8 4 (by norm_num) (by norm_num)).mpr
    (by rw [min_self, log2_32]; decide)

lemma buildLevelsShapes_length (n : ℕ) :
    ∀ h r c : ℕ, 1 ≤ h → (buildLevelsShapes n r c h).length = h := by
  intro h
  induction h using Nat.strong_induction_on with
  | _ h ih =>
      intro r c h1
      match h, h1 with
      | 1, _ => rfl
      | (h' + 2), _ =>
          have := ih (h' + 1) (by omega) (sliceLen r) (sliceLen c) (by omega)
          simp only [buildLevelsShapes, List.length_cons, this]

lemma buildLevelsShapes_get_band (n : ℕ) :
    ∀ (l h r c : ℕ), l + 1 < h →
      (buildLevelsShapes n r c h)[l]? =
        some (PyObj.pylist (List.replicate n
          (PyObj.arr [sliceLen^[l] r, sliceLen^[l] c]))) := by
  intro l
  induction l with
  | zero =>
      intro h r c hl
      match h, hl with
      | (h' + 2), _ =>
          simp [buildLevelsShapes]
  | succ l ih =>
      intro h r c hl
      match h, hl with
      | (h' + 2), _ =>
          have := ih (h' + 1) (sliceLen r) (sliceLen c) (by omega)
          simp only [buildLevelsShapes, List.getElem?_cons_succ, this,
            Function.iterate_succ_apply]

lemma buildLevelsShapes_get_last (n : ℕ) :
    ∀ h r c : ℕ, 1 ≤ h →
      (buildLevelsShapes n r c h)[h - 1]? =
        some (PyObj.arr [sliceLen^[h - 1] r, sliceLen^[h - 1] c]) := by
  intro h
  induction h using Nat.strong_induction_on with
  | _ h ih =>
      intro r c h1
      match h, h1 with
      | 1, _ => simp [buildLevelsShapes]
      | (h' + 2), _ =>
          have hrec := ih (h' + 1) (by omega) (sliceLen r) (sliceLen c) (by omega)
          rw [show h' + 1 - 1 = h' from rfl] at hrec
          rw [show h' + 2 - 1 = h' + 1 from rfl]
          simp only [buildLevelsShapes, List.getElem?_cons_succ]
          rw [hrec, Function.iterate_succ_apply, Function.iterate_succ_apply]

/-- C8: for every valid configuration (`height >= 2` and the build
precondition satisfied), `build` returns a coefficient structure with
exactly `height` entries; level 0 is the high-pass array of the input
shape; every band-pass level `1 .. height-2` holds exactly `nbands`
subbands of one common shape; the low-pass level is a single array; and
from each band-pass level to the next the per-axis dimensions strictly
decrease, the cropped length being exactly `ceil((dims-0.5)/2)`
(the crop-index formula `cropCeil`). -/
theorem build_structure (r c h n : ℕ) (h2 : 2 ≤ h)
    (hpre : (h : ℤ) ≤ (Nat.log2 (min c r) : ℤ) - 2) :
    ∃ coeff, build r c h n = some coeff ∧
      coeff.length = h ∧
      coeff[0]? = some (PyObj.arr [r, c]) ∧
      (∀ l, 1 ≤ l → l ≤ h - 2 →
        coeff[l]? = some (PyObj.pylist (List.replicate n
          (PyObj.arr [sliceLen^[l - 1] r, sliceLen^[l - 1] c])))) ∧
      coeff[h - 1]? = some (PyObj.arr [sliceLen^[h - 2] r, sliceLen^[h - 2] c]) ∧
      (∀ l, 1 ≤ l → l ≤ h - 2 →
        (sliceLen^[l] r < sliceLen^[l - 1] r ∧ sliceLen^[l] c < sliceLen^[l - 1] c) ∧
        ((sliceLen^[l] r : ℤ) = cropCeil (sliceLen^[l - 1] r) ∧
         (sliceLen^[l] c : ℤ) = cropCeil (sliceLen^[l - 1] c))) := by
  obtain ⟨m, rfl⟩ : ∃ m, h = m + 2 := ⟨h - 2, by omega⟩
  -- the precondition forces both dimensions to be at least 2^(h+2)
  have hne : min c r ≠ 0 := by
    intro h0
    rw [h0] at hpre
    rw [Nat.log2_eq_log_two, Nat.log_zero_right] at hpre
    omega
  have hlog : m + 2 + 2 ≤ Nat.log 2 (min c r) := by
    rw [Nat.log2_eq_log_two] at hpre
    omega
  have hmin : 2 ^ (m + 4) ≤ min c r :=
    le_trans (Nat.pow_le_pow_right (by norm_num) (by omega))
      (Nat.pow_log_le_self 2 hne)
  have hrdim : 2 ^ (m + 4) ≤ r := le_trans hmin (min_le_right c r)
  have hcdim : 2 ^ (m + 4) ≤ c := le_trans hmin (min_le_left c r)
  refine ⟨PyObj.arr [r, c] :: buildLevelsShapes n r c (m + 2 - 1), ?_, ?_, by simp, ?_, ?_, ?_⟩
  · unfold build
    rw [if_pos hpre]
  · simp only [List.length_cons,
      buildLevelsShapes_length n (m + 2 - 1) r c (by omega)]
    omega
  · intro l hl1 hl2
    obtain ⟨l', rfl⟩ : ∃ l', l = l' + 1 := ⟨l - 1, by omega⟩
    rw [List.getElem?_cons_succ, show m + 2 - 1 = m + 1 from rfl,
      buildLevelsShapes_get_band n l' (m + 1) r c (by omega)]
    simp
  · rw [show m + 2 - 1 = m + 1 from rfl, List.getElem?_cons_succ,
      show m + 2 - 2 = m from rfl]
    have hlast := buildLevelsShapes_get_last n (m + 1) r c (by omega)
    rw [show m + 1 - 1 = m from rfl] at hlast
    exact hlast
  · intro l hl1 hl2
    have hge : 2 ^ (m + 4 - (l - 1)) ≤ sliceLen^[l - 1] r := by
      apply iterate_sliceLen_pow_le (l - 1) (m + 4 - (l - 1)) r
      rw [show m + 4 - (l - 1) + (l - 1) = m + 4 by omega]
      exact hrdim
    have hge' : 2 ^ (m + 4 - (l - 1)) ≤ sliceLen^[l - 1] c := by
      apply iterate_sliceLen_pow_le (l - 1) (m + 4 - (l - 1)) c
      rw [show m + 4 - (l - 1) + (l - 1) = m + 4 by omega]
      exact hcdim
    have hpow : 2 ≤ 2 ^ (m + 4 - (l - 1)) := by
      calc 2 = 2 ^ 1 := rfl
        _ ≤ 2 ^ (m + 4 - (l - 1)) := Nat.pow_le_pow_right (by norm_num) (by omega)
    have h2r : 2 ≤ sliceLen^[l - 1] r := by omega
    have h2c : 2 ≤ sliceLen^[l - 1] c := by omega
    have hstep : ∀ x : ℕ, sliceLen^[l] x = sliceLen (sliceLen^[l - 1] x) := by
      intro x
      conv_lhs => rw [show l = (l - 1) + 1 by omega]
      rw [Function.iterate_succ_apply']
    constructor
    · exact ⟨by rw [hstep r]; exact sliceLen_lt _ h2r,
        by rw [hstep c]; exact sliceLen_lt _ h2c⟩
    · exact ⟨by rw [hstep r]; exact sliceLen_cast_eq_cropCeil _,
        by rw [hstep c]; exact sliceLen_cast_eq_cropCeil _⟩

/-- C8 witness: the spec's concrete scenario, a `128 × 128` image with
`height = 5`, `nbands = 4`, yields a five-level pyramid. -/
theorem build_structure_witness :
    ∃ coeff, build 128 128 5 4 = some coeff ∧ coeff.length = 5 := by
  obtain ⟨coeff, hsome, hlen, _⟩ :=
    build_structure 128 128 5 4 (by norm_num)
      (by rw [min_self, log2_128]; decide)
  exact ⟨coeff, hsome, hlen⟩

/-! Level-shape query `ComplexSteerablePyramid.level_size` (C9). -/

/-- Embedding of `ComplexSteerablePyramid.level_size(level)` (SCFpyr_NumPy.py, lines
41-49): level 0 returns `self._coeff[level].shape`; the branch for
`level == self._nbands` (commented `Low-pass` in the source) and the
fall-through for intermediate levels both return
`self._coeff[level][0].shape`. -/
def level_size (coeff : List PyObj) (nbands level : ℕ) : Option (List ℕ) :=
  if level = 0 then (coeff[0]?).bind pyShape
  else if level = nbands then ((coeff[level]?).bind pyGetZero).bind pyShape
  else ((coeff[level]?).bind pyGetZero).bind pyShape

lemma sliceLen_128 : sliceLen 128 = 64 := by
  rw [sliceLen_eq]

lemma sliceLen_64 : sliceLen 64 = 32 := by
  rw [sliceLen_eq]

lemma sliceLen_32 : sliceLen 32 = 16 := by
  rw [sliceLen_eq]

/-- C9: on the pyramid built from a `128 × 128` image with `height = 5`,
`nbands = 4`, the low-pass level (level 4) is a `16 × 16` array, yet
`level_size` returns `[16]` — the shape of the array's first **row**
(`self._coeff[level][0].shape`), not the 2D spatial shape `[16, 16]`
the query is specified to return. -/
theorem level_size_lowpass_row_shape :
    ∃ coeff, build 128 128 5 4 = some coeff ∧
      coeff[4]? = some (PyObj.arr [16, 16]) ∧
      level_size coeff 4 4 = some [16] ∧
      level_size coeff 4 4 ≠ some [16, 16] := by
  have hbl : buildLevelsShapes 4 128 128 4 =
      [PyObj.pylist (List.replicate 4 (PyObj.arr [128, 128])),
       PyObj.pylist (List.replicate 4 (PyObj.arr [64, 64])),
       PyObj.pylist (List.replicate 4 (PyObj.arr [32, 32])),
       PyObj.arr [16, 16]] := by
    rw [show (4 : ℕ) = 2 + 2 from rfl, buildLevelsShapes, sliceLen_128,
      buildLevelsShapes, sliceLen_64, buildLevelsShapes, sliceLen_32,
      buildLevelsShapes]
  refine ⟨PyObj.arr [128, 128] :: buildLevelsShapes 4 128 128 4, ?_, ?_, ?_, ?_⟩
  · unfold build
    rw [if_pos (by rw [min_self, log2_128]; decide)]
  · rw [hbl]
    rfl
  · rw [hbl]
    rfl
  · rw [hbl]
    simp [level_size, pyGetZero, pyShape]

/-! Embedding of `reconstruct` and its orientation-count guard (C4). -/

/-- Failure modes of `reconstruct`. -/
inductive PyErr : Type
  | shapeMismatch
  | indexError
deriving DecidableEq

/-- Shape-level embedding of `SCFpyr_NumPy.reconstruct(coeff)` (lines
222-242; `SCFpyr_PyTorch.reconstruct`, lines 218-238, is identical).  The
very first statement raises the orientation-count mismatch
(`if self.nbands != len(coeff[1]): raise ...`); only then does the method
regenerate grids and masks for the shape of `coeff[0]` and produce an
image of that shape.  `indexError` models `coeff[1]` not existing. -/
def reconstruct (nbands : ℕ) (coeff : List PyObj) :
    Except PyErr (Option (List ℕ)) :=
  match coeff[1]? with
  | none => .error .indexError
  | some o =>
      if nbands ≠ pyLen o then .error .shapeMismatch
      else .ok ((coeff[0]?).bind pyShape)

/-- C4: `reconstruct` fails with the orientation-count mismatch error if
and only if `len(coeff[1])` differs from the configured `nbands`; the
check is the first statement of the method, before any other
computation. -/
theorem reconstruct_mismatch_iff (nbands : ℕ) (coeff : List PyObj) :
    reconstruct nbands coeff = .error .shapeMismatch ↔
      ∃ o, coeff[1]? = some o ∧ pyLen o ≠ nbands := by
  unfold reconstruct
  cases hco : coeff[1]? with
  | none => simp
  | some o =>
      by_cases hn : nbands = pyLen o
      · simp [hn]
      · simp only [hn, ne_eq, not_false_eq_true, if_true, Option.some.injEq]
        constructor
        · intro _
          exact ⟨o, rfl, by omega⟩
        · intro _
          trivial

/-! Embedding of `steerable/fft.py`: `batch_fftshift2d` and `batch_ifftshift2d` (C10).

`batch_flip_halves(x, axis)` is `torch.cat((split[1], split[0]), axis)`
where `split = torch.chunk(x, 2, axis)`: the first chunk holds the first
`ceil(n/2)` entries of the axis, the second the rest.  A tensor of shape
`[N, H, W, 2]` is embedded as nested lists; flipping axis 1 (the `H`
axis) flips each batch element's row list, flipping axis 2 (the `W`
axis) flips each row, which agrees with the tensor-level chunk under the
uniform-shape assertion of `batch_fftshift2d`. -/

/-- One axis of `batch_flip_halves`: swap the leading `ceil(n/2)` entries
with the rest (`torch.chunk(x, 2, axis)` then `torch.cat` swapped). -/
def flipHalves {α : Type} (l : List α) : List α :=
  l.drop ((l.length + 1) / 2) ++ l.take ((l.length + 1) / 2)

/-- Embedding of `batch_flip_halves(x, axis=1)` on an `[N, H, W, 2]` tensor. -/
def batchFlipAxis1 (x : List (List (List (List ℚ)))) :
    List (List (List (List ℚ))) :=
  x.map flipHalves

/-- Embedding of `batch_flip_halves(x, axis=2)` on an `[N, H, W, 2]` tensor. -/
def batchFlipAxis2 (x : List (List (List (List ℚ)))) :
    List (List (List (List ℚ))) :=
  x.map (List.map flipHalves)

/-- Embedding of `batch_fftshift2d` (fft.py, lines 27-34): flip axis 1, then axis 2. -/
def batch_fftshift2d (x : List (List (List (List ℚ)))) :
    List (List (List (List ℚ))) :=
  batchFlipAxis2 (batchFlipAxis1 x)

/-- Embedding of `batch_ifftshift2d` (fft.py, lines 36-42): flip axis 2, then axis 1. -/
def batch_ifftshift2d (x : List (List (List (List ℚ)))) :
    List (List (List (List ℚ))) :=
  batchFlipAxis1 (batchFlipAxis2 x)

lemma mem_flipHalves {α : Type} {l : List α} {a : α}
    (h : a ∈ flipHalves l) : a ∈ l := by
  unfold flipHalves at h
  rcases List.mem_append.mp h with h | h
  · exact List.mem_of_mem_drop h
  · exact List.mem_of_mem_take h

/-- Halving an even-length axis twice restores it: the two chunks have
equal size, so swapping them is an involution. -/
lemma flipHalves_flipHalves {α : Type} (l : List α) (h : Even l.length) :
    flipHalves (flipHalves l) = l := by
  obtain ⟨m, hm⟩ := h
  have hk : (l.length + 1) / 2 = m := by omega
  have hdlen : (l.drop m).length = m := by
    rw [List.length_drop]
    omega
  have hflip : flipHalves l = l.drop m ++ l.take m := by
    unfold flipHalves
    rw [hk]
  rw [hflip]
  unfold flipHalves
  have hlen : (l.drop m ++ l.take m).length = l.length := by
    rw [List.length_append, List.length_drop, List.length_take]
    omega
  rw [hlen, hk, List.drop_left' hdlen, List.take_left' hdlen,
    List.take_append_drop]

/-- C10: on a `[N, H, W, 2]` tensor with even `H` and even `W`,
`batch_ifftshift2d` undoes `batch_fftshift2d` exactly: each axis is split
into two equal halves, so the two half-swaps are mutual inverses. -/
theorem fftshift_roundtrip (x : List (List (List (List ℚ))))
    (hH : ∀ b ∈ x, Even b.length)
    (hW : ∀ b ∈ x, ∀ row ∈ b, Even row.length) :
    batch_ifftshift2d (batch_fftshift2d x) = x := by
  unfold batch_ifftshift2d batch_fftshift2d batchFlipAxis1 batchFlipAxis2
  rw [List.map_map, List.map_map, List.map_map]
  have hpt : ∀ b ∈ x,
      (((flipHalves ∘ List.map flipHalves) ∘ List.map flipHalves) ∘ flipHalves) b
        = b := by
    intro b hb
    simp only [Function.comp_apply, List.map_map]
    have hrows : (flipHalves b).map (flipHalves ∘ flipHalves) = flipHalves b := by
      rw [List.map_congr_left (g := id) ?_, List.map_id]
      intro row hrow
      exact flipHalves_flipHalves row (hW b hb row (mem_flipHalves hrow))
    rw [hrows]
    exact flipHalves_flipHalves b (hH b hb)
  rw [List.map_congr_left hpt]
  simp

/-- C10 witness: a concrete `[1, 2, 2, 2]` tensor round-trips. -/
theorem fftshift_roundtrip_witness :
    batch_ifftshift2d (batch_fftshift2d
      [[[[(1 : ℚ), 2], [3, 4]], [[5, 6], [7, 8]]]]) =
      [[[[(1 : ℚ), 2], [3, 4]], [[5, 6], [7, 8]]]] :=
  fftshift_roundtrip _ (by decide) (by decide)

/-! Backend divergence in the oriented-subband transform (C2).

For a 2×2 array the DFT kernel `exp(-2*pi*i*k*m/2) = (-1)^(k*m)` is
exact, so `np.fft.fft2` / `np.fft.ifft2` / `np.fft.ifftshift` on 2×2
inputs are exact rational-linear maps and can be embedded over `ℚ`
without any floating-point modelling. -/

/-- A complex sample as an exact rational pair (re, im). -/
abbrev CQ : Type := ℚ × ℚ

/-- A 2×2 complex array `((x00, x01), (x10, x11))`. -/
abbrev Mat2 : Type := (CQ × CQ) × (CQ × CQ)

/-- Embedding of `np.fft.fft2` on a 2×2 array: `F[k,l] = Σ x[m,n] * (-1)^(k*m + l*n)`. -/
def fft2 : Mat2 → Mat2
  | ((a, b), (c, d)) =>
      ((a + b + c + d, a - b + c - d), (a + b - c - d, a - b - c + d))

/-- Scale every entry of a 2×2 complex array by a rational factor. -/
def mscale (s : ℚ) : Mat2 → Mat2
  | ((a, b), (c, d)) =>
      (((s * a.1, s * a.2), (s * b.1, s * b.2)),
       ((s * c.1, s * c.2), (s * d.1, s * d.2)))

/-- Embedding of `np.fft.ifft2` on a 2×2 array: for `N = 2` the inverse kernel equals
the forward kernel, normalised by `1/(2*2)`. -/
def ifft2 (m : Mat2) : Mat2 := mscale (1/4) (fft2 m)

/-- Embedding of `np.fft.ifftshift` (= `np.fft.fftshift`) on a 2×2 array: swap the two
halves of both axes. -/
def ifftshift2 : Mat2 → Mat2
  | ((a, b), (c, d)) => ((d, c), (b, a))

/-- Oriented-subband inverse transform of the NumPy builder
(`SCFpyr_NumPy._build_levels`, line 184):
`band = np.fft.ifft2(np.fft.ifftshift(banddft))`. -/
def numpyBandTransform (banddft : Mat2) : Mat2 := ifft2 (ifftshift2 banddft)

/-- Oriented-subband inverse transform of the PyTorch builder
(`SCFpyr_PyTorch._build_levels`, line 177):
`band = torch.ifft(banddft, signal_ndim=2)` — applied to the
center-shifted spectrum with **no** `ifftshift`. -/
def torchBandTransform (banddft : Mat2) : Mat2 := ifft2 banddft

/-- C2: the two backends do not compute the same subband coefficients:
on the 2×2 band spectrum with a single nonzero bin the NumPy transform
`ifft2(ifftshift(banddft))` and the PyTorch transform `ifft(banddft)`
disagree, so backend selection changes numeric results (beyond rounding). -/
theorem backend_band_divergence :
    numpyBandTransform (((1, 0), (0, 0)), ((0, 0), (0, 0))) ≠
      torchBandTransform (((1, 0), (0, 0)), ((0, 0), (0, 0))) := by
  unfold numpyBandTransform torchBandTransform ifft2 ifftshift2 fft2 mscale
  intro hcontra
  have h01 := congrArg (fun m : Mat2 => m.1.2.1) hcontra
  norm_num at h01

/-! Radial-abscissa shift of `_build_levels` (C5). -/

/-- Per-entry update of the radial abscissa in the NumPy builder
(`SCFpyr_NumPy._build_levels`, line 167): `Xrcos = Xrcos - 1` — the
constant 1, independent of the configured `scale_factor`. -/
noncomputable def numpyNextXrcos (x : ℝ) : ℝ := x - 1

/-- Per-entry update of the radial abscissa in the PyTorch builder
(`SCFpyr_PyTorch._build_levels`, line 141):
`Xrcos = Xrcos - np.log2(self.scale_factor)`. -/
noncomputable def torchNextXrcos (sf : ℕ) (x : ℝ) : ℝ := x - Real.logb 2 sf

lemma log_two_ne_zero : Real.log 2 ≠ 0 :=
  ne_of_gt (Real.log_pos one_lt_two)

lemma logb_two_two : Real.logb 2 2 = 1 := by
  unfold Real.logb
  exact div_self log_two_ne_zero

lemma logb_two_four : Real.logb 2 4 = 2 := by
  unfold Real.logb
  rw [show (4 : ℝ) = 2 ^ (2 : ℕ) by norm_num, Real.log_pow, mul_div_assoc,
    div_self log_two_ne_zero]
  norm_num

/-- C5 counterexample: with `scale_factor = 4` the NumPy builder's shift
(`Xrcos - 1`) is **not** `Xrcos - log2(scale_factor)`, already at the
abscissa entry 0 (`log2(4) = 2 ≠ 1`). -/
theorem numpy_xrcos_shift_counterexample :
    numpyNextXrcos 0 ≠ 0 - Real.logb 2 4 := by
  unfold numpyNextXrcos
  rw [logb_two_four]
  norm_num

/-- C5 amended: the NumPy builder always shifts the radial abscissa by
the constant `1 = log2(2)` — matching `log2(scale_factor)` only for
`scale_factor = 2` — while the PyTorch builder shifts it by
`log2(scale_factor)` for every configured `scale_factor`. -/
theorem xrcos_shift_amended :
    (∀ x : ℝ, numpyNextXrcos x = x - Real.logb 2 2) ∧
    (∀ (sf : ℕ) (x : ℝ), torchNextXrcos sf x = x - Real.logb 2 sf) := by
  constructor
  · intro x
    unfold numpyNextXrcos
    rw [logb_two_two]
  · intro sf x
    rfl

/-! Angular profiles `Ycosn` of builder and reconstructor (C6).

Both are evaluated over the cached lookup abscissa
`Xcosn = pi * range(-(2*lutsize+1), lutsize+2) / lutsize` (which contains
the value 0 at index `2*lutsize+1`), so they are embedded as functions of
the abscissa value `θ`.  `alpha = (Xcosn + pi) % (2*pi) - pi`
(`SCFpyr_NumPy.__init__`, line 82) uses NumPy's floor-mod. -/

/-- NumPy floor-mod on reals: `np.mod(a, b) = a - b*floor(a/b)`. -/
noncomputable def rmod (a b : ℝ) : ℝ := a - b * ⌊a / b⌋

/-- Embedding of `alpha = (Xcosn + pi) % (2*pi) - pi` as a function of the abscissa
value (SCFpyr_NumPy.py, line 82). -/
noncomputable def alphaOf (θ : ℝ) : ℝ :=
  rmod (θ + Real.pi) (2 * Real.pi) - Real.pi

/-- The normalisation constant of both builder and reconstructor
(lines 176 and 264): `2^(2*order) * factorial(order)^2 /
(nbands * factorial(2*order))` with `order = nbands - 1`. -/
noncomputable def constVal (nbands : ℕ) : ℝ :=
  2 ^ (2 * (nbands - 1)) * (Nat.factorial (nbands - 1) : ℝ) ^ 2 /
    ((nbands : ℝ) * (Nat.factorial (2 * (nbands - 1)) : ℝ))

/-- Builder angular profile (`SCFpyr_NumPy._build_levels`, line 177):
`Ycosn = 2*sqrt(const) * cos(Xcosn)^order * (abs(alpha) < pi/2)`. -/
noncomputable def YcosnBuild (nbands : ℕ) (θ : ℝ) : ℝ :=
  2 * Real.sqrt (constVal nbands) * Real.cos θ ^ (nbands - 1) *
    (if |alphaOf θ| < Real.pi / 2 then 1 else 0)

/-- Reconstructor angular profile (`SCFpyr_NumPy._reconstruct_levels`,
line 265): `Ycosn = sqrt(const) * cos(Xcosn)^order` — no factor 2 and no
angular restriction. -/
noncomputable def YcosnRecon (nbands : ℕ) (θ : ℝ) : ℝ :=
  Real.sqrt (constVal nbands) * Real.cos θ ^ (nbands - 1)

lemma constVal_one : constVal 1 = 1 := by
  unfold constVal
  norm_num [Nat.factorial]

lemma alphaOf_zero : alphaOf 0 = 0 := by
  unfold alphaOf rmod
  have hπ : Real.pi ≠ 0 := ne_of_gt Real.pi_pos
  have hq : (0 + Real.pi) / (2 * Real.pi) = 1 / 2 := by
    rw [zero_add]
    field_simp
    ring
  rw [hq, show ⌊(1 / 2 : ℝ)⌋ = 0 by norm_num]
  ring

/-- C6 counterexample: at abscissa value 0 (an entry of the cached
`Xcosn` lookup table) with `nbands = 1`, the builder's profile is 2 and
the reconstructor's is 1 — the two `Ycosn` are not identical. -/
theorem ycosn_not_identical : YcosnBuild 1 0 ≠ YcosnRecon 1 0 := by
  have hb : YcosnBuild 1 0 = 2 := by
    unfold YcosnBuild
    rw [constVal_one, Real.sqrt_one, alphaOf_zero, abs_zero,
      if_pos (by positivity)]
    norm_num
  have hr : YcosnRecon 1 0 = 1 := by
    unfold YcosnRecon
    rw [constVal_one, Real.sqrt_one]
    norm_num
  rw [hb, hr]
  norm_num

/-- C6 amended: the reconstructor's `Ycosn` is `sqrt(const)*cos(θ)^order`
— half the builder's amplitude and without the `|alpha| < pi/2`
restriction — so at every abscissa value the builder's profile equals
twice the reconstructor's times the angular indicator; the phase factors
remain exact adjoints: `conj((-i)^order) = (+i)^order`. -/
theorem ycosn_amended :
    (∀ (nbands : ℕ) (θ : ℝ),
      YcosnBuild nbands θ =
        2 * YcosnRecon nbands θ * (if |alphaOf θ| < Real.pi / 2 then 1 else 0)) ∧
    (∀ order : ℕ,
      (starRingEnd ℂ) ((-Complex.I) ^ order) = Complex.I ^ order) := by
  constructor
  · intro nbands θ
    unfold YcosnBuild YcosnRecon
    ring
  · intro order
    rw [map_pow, map_neg, Complex.conj_I, neg_neg]

/-! Pixel finalisation of `reconstruct` (C7). -/

/-- Elementwise pixel finalisation of `reconstruct` (SCFpyr_NumPy.py,
line 242): `np.fft.ifft2(np.fft.ifftshift(outdft)).real.astype(int)`.
NumPy's `astype(int)` is a C cast: truncation toward zero. -/
def npAstypeInt (x : ℚ) : ℤ := if 0 ≤ x then ⌊x⌋ else ⌈x⌉

/-- C7 counterexample: a pixel whose real part is 1.7 is stored as 1 by
`reconstruct`'s `astype(int)`, not as the nearest integer 2. -/
theorem astype_not_round : npAstypeInt (17 / 10) ≠ round ((17 : ℚ) / 10) := by
  have h1 : npAstypeInt (17 / 10) = 1 := by
    unfold npAstypeInt
    rw [if_pos (by norm_num)]
    rw [Int.floor_eq_iff]
    norm_num
  have h2 : round ((17 : ℚ) / 10) = 2 := by
    rw [round_eq]
    rw [show (17 : ℚ) / 10 + 1 / 2 = 11 / 5 by norm_num]
    rw [Int.floor_eq_iff]
    norm_num
  rw [h1, h2]
  norm_num

/-- C7 amended: the image returned by `reconstruct` is the real part of
the final inverse transform with every pixel **truncated toward zero**
(an odd function agreeing with `floor` on nonnegative values), not
rounded to the nearest integer. -/
theorem astype_truncates (x : ℚ) :
    npAstypeInt (-x) = -npAstypeInt x ∧ (0 ≤ x → npAstypeInt x = ⌊x⌋) := by
  constructor
  · unfold npAstypeInt
    rcases lt_trichotomy x 0 with hx | hx | hx
    · rw [if_pos (by linarith), if_neg (by linarith), Int.floor_neg]
    · subst hx
      norm_num
    · rw [if_neg (by linarith), if_pos (by linarith), Int.ceil_neg]
  · intro hx
    unfold npAstypeInt
    rw [if_pos hx]

/-- C7 amended witness: truncation at the concrete pixel values ±1.7. -/
theorem astype_truncates_witness :
    npAstypeInt (-(17 / 10 : ℚ)) = -npAstypeInt (17 / 10) ∧
      npAstypeInt ((17 : ℚ) / 10) = ⌊(17 : ℚ) / 10⌋ :=
  ⟨(astype_truncates (17 / 10)).1, (astype_truncates (17 / 10)).2 (by norm_num)⟩

end Steerable
